import Mathlib

/-!
Verification development for the healthmealtrack meal health-risk analysis
engine.  The definitions below are a shallow embedding of the core pipeline
found in the repository source:

* Food extractor: extractFoodItems / isFoodRelated / removeDuplicates
  (vision service file, src/unnamed/part_001).
* Nutrient aggregator: the confidence-weighted accumulation loop of
  getNutritionalData, plus getLocalNutritionData and getFallbackNutrition.
* Risk evaluator: analyzeHealthRisks.
* Categorizer: the pre-save hook of src/models/Meal.js.

JavaScript numbers are embedded as rationals (ℚ); JS objects with a fixed
key set become Lean structures or functions from an inductive key type.
Display-only message strings (built with toFixed on floats) are not part of
any verified property and are omitted from the embedded records; every other
field of the source records is kept.
-/

namespace HealthMealTrack

/-- The fixed nutrient key set of the combinedNutrition accumulator object in
getNutritionalData (and of the Meal schema nutrition sub-document). -/
inductive NutrientKey
  | calories | protein | carbs | fat | fiber | sugar | sodium | potassium
  | cholesterol | saturatedFat | transFat | vitaminA | vitaminC | calcium | iron
  deriving DecidableEq

/-- Enumeration of the nutrient keys. -/
def NutrientKey.all : List NutrientKey :=
  [.calories, .protein, .carbs, .fat, .fiber, .sugar, .sodium, .potassium,
   .cholesterol, .saturatedFat, .transFat, .vitaminA, .vitaminC, .calcium, .iron]

instance : Fintype NutrientKey where
  elems := ⟨↑NutrientKey.all, by decide⟩
  complete := by intro k; cases k <;> decide

/-- A nutrient vector: the fixed mapping from nutrient key to quantity.
JS objects holding only a subset of the keys are embedded as total functions
that return 0 on the missing keys (matching the truthiness guards
`if (nutrition[key])` and `nutrition[key] || 0` in the source). -/
def NutrientVector : Type := NutrientKey → ℚ

/-- One entry of visionResults.labelAnnotations. -/
structure VisionLabel where
  description : String
  score : ℚ
  deriving DecidableEq

/-- One entry of visionResults.localizedObjectAnnotations.  The boundingPoly
field is carried through unchanged by the source and referenced by no
property; it is omitted here. -/
structure VisionObject where
  name : String
  score : ℚ
  deriving DecidableEq

/-- The vision response as read by extractFoodItems: either annotation list
may be absent (the source guards each with a truthiness test).  Text
detections are never read by the extractor and are omitted. -/
structure VisionResults where
  labelAnnotations : Option (List VisionLabel)
  localizedObjectAnnotations : Option (List VisionObject)

/-- The source tag put on extracted food items. -/
inductive FoodSource
  | label
  | object
  deriving DecidableEq

/-- A recognized food item as produced by extractFoodItems (the boundingBox
field attached to object-sourced items is omitted, as for VisionObject). -/
structure FoodItem where
  name : String
  confidence : ℚ
  source : FoodSource
  deriving DecidableEq

/-- Auxiliary: list-of-chars version of a leading-match test. -/
def startsWithList : List Char → List Char → Bool
  | [], _ => true
  | _ :: _, [] => false
  | a :: as, b :: bs => a == b && startsWithList as bs

/-- Auxiliary: substring occurrence test on lists of chars. -/
def infixList (pat : List Char) : List Char → Bool
  | [] => pat.isEmpty
  | b :: bs => startsWithList pat (b :: bs) || infixList pat bs

/-- JS s.includes(pat): pat occurs as a contiguous substring of s. -/
def jsIncludes (s pat : String) : Bool :=
  infixList pat.data s.data

/-- JS s.toLowerCase(), written directly on the character list (it agrees
with String.toLower, whose byte-position loop the kernel cannot evaluate). -/
def jsToLower (s : String) : String :=
  ⟨s.data.map Char.toLower⟩

/-- The food vocabulary of isFoodRelated (the similar list declared locally
inside extractFoodItems is dead code in the source: the filter calls
isFoodRelated, which uses this list). -/
def foodKeywords : List String :=
  ["food", "dish", "meal", "cuisine", "ingredient", "fruit", "vegetable",
   "meat", "fish", "chicken", "beef", "pork", "lamb", "rice", "pasta",
   "bread", "cake", "dessert", "soup", "salad", "sandwich", "pizza",
   "burger", "steak", "sushi", "curry", "noodles", "potato", "tomato",
   "onion", "garlic", "carrot", "broccoli", "spinach", "lettuce",
   "apple", "banana", "orange", "grape", "strawberry", "blueberry",
   "milk", "cheese", "yogurt", "egg", "butter", "oil", "sauce",
   "cooking", "kitchen", "restaurant", "dining", "plate", "bowl"]

/-- isFoodRelated: case-insensitive substring match against the vocabulary. -/
def isFoodRelated (label : String) : Bool :=
  foodKeywords.any (fun keyword => jsIncludes (jsToLower label) keyword)

/-- The label branch of extractFoodItems: keep labels with score strictly
above 0.7 whose description is food-related, lowercasing the name. -/
def labelCandidates (labels : List VisionLabel) : List FoodItem :=
  labels.filterMap (fun l =>
    if mkRat 7 10 < l.score ∧ isFoodRelated l.description then
      some { name := jsToLower l.description, confidence := l.score, source := .label }
    else none)

/-- The localized-object branch of extractFoodItems, analogous. -/
def objectCandidates (objs : List VisionObject) : List FoodItem :=
  objs.filterMap (fun o =>
    if mkRat 7 10 < o.score ∧ isFoodRelated o.name then
      some { name := jsToLower o.name, confidence := o.score, source := .object }
    else none)

/-- All candidate food items, label-sourced first, in source push order. -/
def candidates (vr : VisionResults) : List FoodItem :=
  labelCandidates (vr.labelAnnotations.getD [])
    ++ objectCandidates (vr.localizedObjectAnnotations.getD [])

/-- removeDuplicates: filter with a growing seen-set of names, keeping the
first occurrence of each name.  The JS Set is embedded as the list of names
already kept. -/
def removeDupAux (seen : List String) : List FoodItem → List FoodItem
  | [] => []
  | item :: rest =>
    if item.name ∈ seen then removeDupAux seen rest
    else item :: removeDupAux (item.name :: seen) rest

/-- removeDuplicates from the source (empty initial seen-set). -/
def removeDuplicates (foodItems : List FoodItem) : List FoodItem :=
  removeDupAux [] foodItems

/-- The sort comparator (a, b) => b.confidence - a.confidence: a may precede
b exactly when a.confidence ≥ b.confidence.  JS sort is stable, as is
List.mergeSort. -/
def confDesc (a b : FoodItem) : Bool :=
  decide (b.confidence ≤ a.confidence)

/-- extractFoodItems: filter both annotation lists, deduplicate by name,
sort by confidence descending, truncate to the top 10. -/
def extractFoodItems (vr : VisionResults) : List FoodItem :=
  (((removeDuplicates (candidates vr)).mergeSort confDesc).take 10)

/-- The confidence weight `food.confidence || 1`: in JS the number 0 is
falsy, so a confidence of exactly 0 yields weight 1. -/
def confWeight (confidence : ℚ) : ℚ :=
  if confidence = 0 then 1 else confidence

/-- The amount one settled lookup outcome adds to the accumulator at one key
in getNutritionalData: rejected promises and falsy values (embedded as none)
add nothing; a resolved vector adds value × weight at every key whose value
is truthy (≠ 0). -/
def contribution (p : FoodItem × Option NutrientVector) : NutrientVector :=
  fun k =>
    match p.2 with
    | some v => if v k ≠ 0 then v k * confWeight p.1.confidence else 0
    | none => 0

/-- The accumulation loop of getNutritionalData over the index-aligned pairs
of recognizedFoods and their settled lookup outcomes, starting from the
all-zero accumulator. -/
def combineNutrition (results : List (FoodItem × Option NutrientVector)) : NutrientVector :=
  results.foldl (fun acc p => fun k => acc k + contribution p k) (fun _ => 0)

/-- Helper building a nutrient vector from the eight keys the local database
rows carry; all other keys are absent in the source rows, hence 0. -/
def mkNV (calories protein carbs fat fiber sugar sodium potassium : ℚ) : NutrientVector :=
  fun k =>
    match k with
    | .calories => calories
    | .protein => protein
    | .carbs => carbs
    | .fat => fat
    | .fiber => fiber
    | .sugar => sugar
    | .sodium => sodium
    | .potassium => potassium
    | _ => 0

/-- The local nutrition database of getLocalNutritionData, in declaration
order (JS Object.entries iterates string keys in insertion order). -/
def nutritionDB : List (String × NutrientVector) :=
  [("rice", mkNV 130 (mkRat 27 10) 28 (mkRat 3 10) (mkRat 4 10) (mkRat 1 10) 1 35),
   ("chicken", mkNV 165 31 0 (mkRat 36 10) 0 0 74 256),
   ("fish", mkNV 206 22 0 12 0 0 61 384),
   ("vegetables", mkNV 25 2 5 (mkRat 2 10) 2 2 20 200),
   ("bread", mkNV 79 (mkRat 31 10) 14 (mkRat 11 10) (mkRat 12 10) (mkRat 12 10) 140 35),
   ("pasta", mkNV 131 5 25 (mkRat 11 10) (mkRat 18 10) (mkRat 8 10) 6 44),
   ("potato", mkNV 77 2 17 (mkRat 1 10) (mkRat 22 10) (mkRat 8 10) 6 421),
   ("tomato", mkNV 18 (mkRat 9 10) (mkRat 39 10) (mkRat 2 10) (mkRat 12 10) (mkRat 26 10) 5 237),
   ("onion", mkNV 40 (mkRat 11 10) (mkRat 93 10) (mkRat 1 10) (mkRat 17 10) (mkRat 47 10) 4 146),
   ("garlic", mkNV 4 (mkRat 2 10) 1 0 (mkRat 1 10) (mkRat 1 10) 1 12),
   ("oil", mkNV 120 0 0 14 0 0 0 0),
   ("salt", mkNV 0 0 0 0 0 0 581 0),
   ("sugar", mkNV 16 0 4 0 0 4 0 0),
   ("milk", mkNV 42 (mkRat 34 10) 5 1 0 5 44 150),
   ("cheese", mkNV 113 7 (mkRat 4 10) 9 0 (mkRat 1 10) 174 28),
   ("egg", mkNV 74 (mkRat 63 10) (mkRat 4 10) 5 0 (mkRat 4 10) 70 67),
   ("meat", mkNV 250 26 0 15 0 0 72 318),
   ("lentils", mkNV 116 9 20 (mkRat 4 10) (mkRat 79 10) (mkRat 18 10) 2 369)]

/-- The default vector returned for unknown foods. -/
def defaultNutrition : NutrientVector :=
  mkNV 50 2 8 1 1 1 10 50

/-- getLocalNutritionData: first database row whose key is a substring of
the lowercased food name or vice versa, else the default vector. -/
def getLocalNutritionData (foodName : String) : NutrientVector :=
  match nutritionDB.find? (fun e =>
      jsIncludes (jsToLower foodName) e.1 || jsIncludes e.1 (jsToLower foodName)) with
  | some e => e.2
  | none => defaultNutrition

/-- getFallbackNutrition: resolve every food locally and accumulate with the
same confidence weighting (`(nutrition[key] || 0) * weight`; the `|| 0` is
the identity here because the embedded vectors are total with 0 defaults). -/
def getFallbackNutrition (recognizedFoods : List FoodItem) : NutrientVector :=
  recognizedFoods.foldl
    (fun acc food => fun k => acc k + getLocalNutritionData food.name k * confWeight food.confidence)
    (fun _ => 0)

/-- One element of userProfile.healthConditions.  The free-text details
field is never read by the analyzer and is omitted. -/
structure HealthCondition where
  condition : String
  deriving DecidableEq

/-- The user profile as read by analyzeHealthRisks: the healthConditions
array may be absent (`userProfile.healthConditions || []`). -/
structure UserProfile where
  healthConditions : Option (List HealthCondition)

/-- Risk finding types produced by analyzeHealthRisks. -/
inductive RiskType
  | high_carbs | high_sugar | high_sodium | high_potassium | high_fat
  deriving DecidableEq

/-- Severity levels of the Meal schema healthRisks enum.  analyzeHealthRisks
itself only ever produces warning and danger. -/
inductive Severity
  | low | warning | danger
  deriving DecidableEq

/-- A risk finding pushed by analyzeHealthRisks.  The display message string
(interpolating toFixed-rounded values) is omitted; type, severity, value and
threshold are kept. -/
structure RiskFinding where
  type : RiskType
  severity : Severity
  value : ℚ
  threshold : ℚ
  deriving DecidableEq

/-- A generic warning pushed to the warnings list (message string omitted). -/
structure MealWarning where
  type : String
  deriving DecidableEq

/-- The pair of lists returned by analyzeHealthRisks. -/
structure HealthAnalysis where
  risks : List RiskFinding
  warnings : List MealWarning
  deriving DecidableEq

/-- conditions.some(c => c.condition === code). -/
def hasCondition (conditions : List HealthCondition) (code : String) : Bool :=
  conditions.any (fun c => c.condition == code)

/-- One threshold check of analyzeHealthRisks: the singleton list pushed when
the nutrient strictly exceeds the threshold, else nothing. -/
def trigger (exceeded : Prop) [Decidable exceeded] (finding : RiskFinding) : List RiskFinding :=
  if exceeded then [finding] else []

/-- analyzeHealthRisks: early return on a missing profile, then the four
condition-guarded rule blocks in source order pushing findings, and the
condition-independent calorie check pushing a generic warning.  Sequential
pushes are embedded as list concatenation in the same order. -/
def analyzeHealthRisks (nutrition : NutrientVector) (userProfile : Option UserProfile) :
    HealthAnalysis :=
  match userProfile with
  | none => { risks := [], warnings := [] }
  | some profile =>
    let conditions := profile.healthConditions.getD []
    let diabetesRisks : List RiskFinding :=
      if hasCondition conditions "diabetes" then
        trigger (nutrition .carbs > 60)
          { type := .high_carbs, severity := .warning, value := nutrition .carbs, threshold := 60 } ++
        trigger (nutrition .sugar > 15)
          { type := .high_sugar, severity := .danger, value := nutrition .sugar, threshold := 15 }
      else []
    let bpRisks : List RiskFinding :=
      if hasCondition conditions "bp" then
        trigger (nutrition .sodium > 500)
          { type := .high_sodium, severity := .danger, value := nutrition .sodium, threshold := 500 }
      else []
    let kidneyRisks : List RiskFinding :=
      if hasCondition conditions "kidney" then
        trigger (nutrition .potassium > 400)
          { type := .high_potassium, severity := .danger, value := nutrition .potassium, threshold := 400 }
      else []
    let cholesterolRisks : List RiskFinding :=
      if hasCondition conditions "cholesterol" then
        trigger (nutrition .fat > 20)
          { type := .high_fat, severity := .warning, value := nutrition .fat, threshold := 20 }
      else []
    let warnings : List MealWarning :=
      if nutrition .calories > 600 then [{ type := "high_calories" }] else []
    { risks := diabetesRisks ++ bpRisks ++ kidneyRisks ++ cholesterolRisks,
      warnings := warnings }

/-- The meal category enum of the Meal schema. -/
inductive Category
  | healthy | moderate | unhealthy | unknown
  deriving DecidableEq

/-- The pre-save hook of the Meal schema: when aiAnalysis.healthRisks is
reachable (embedded as some risks, none covering both an absent aiAnalysis
and an absent healthRisks array), recategorize from the findings; otherwise
leave the stored category as it is. -/
def applyPreSave (category : Option Category) (healthRisks : Option (List RiskFinding)) :
    Option Category :=
  match healthRisks with
  | none => category
  | some risks =>
    let dangerRisks := risks.filter (fun r => r.severity == Severity.danger)
    let warningRisks := risks.filter (fun r => r.severity == Severity.warning)
    if dangerRisks.length > 0 then some .unhealthy
    else if warningRisks.length > 0 then some .moderate
    else if risks.length = 0 then some .healthy
    else category

/-! ## Helper lemmas -/

theorem mem_trigger {exceeded : Prop} [Decidable exceeded] {f r : RiskFinding} :
    r ∈ trigger exceeded f ↔ r = f ∧ exceeded := by
  unfold trigger
  split_ifs with h <;> simp [h]

theorem filter_trigger (p : RiskFinding → Bool) {exceeded : Prop} [Decidable exceeded]
    (f : RiskFinding) :
    (trigger exceeded f).filter p = if exceeded ∧ p f then [f] else [] := by
  unfold trigger
  split_ifs with h1 h2 <;> simp_all [List.filter]

@[simp] theorem beq_riskType (a b : RiskType) : (a == b) = decide (a = b) := rfl

@[simp] theorem beq_severity (a b : Severity) : (a == b) = decide (a = b) := rfl

theorem combineNutrition_go (rs : List (FoodItem × Option NutrientVector))
    (acc : NutrientVector) (k : NutrientKey) :
    rs.foldl (fun acc p => fun k => acc k + contribution p k) acc k
      = acc k + ((rs.map fun p => contribution p k).sum) := by
  induction rs generalizing acc with
  | nil => simp
  | cons p rest ih =>
    simp only [List.foldl_cons, List.map_cons, List.sum_cons, ih]
    ring

theorem combineNutrition_eq_sum (rs : List (FoodItem × Option NutrientVector))
    (k : NutrientKey) :
    combineNutrition rs k = ((rs.map fun p => contribution p k).sum) := by
  have h := combineNutrition_go rs (fun _ => 0) k
  simpa [combineNutrition] using h

theorem combineNutrition_snoc (rs : List (FoodItem × Option NutrientVector))
    (p : FoodItem × Option NutrientVector) (k : NutrientKey) :
    combineNutrition (rs ++ [p]) k = combineNutrition rs k + contribution p k := by
  simp [combineNutrition_eq_sum]

theorem nutritionDB_nonneg : ∀ e ∈ nutritionDB, ∀ k, 0 ≤ e.2 k := by decide

theorem defaultNutrition_nonneg : ∀ k, 0 ≤ defaultNutrition k := by decide

theorem getLocalNutritionData_nonneg (foodName : String) (k : NutrientKey) :
    0 ≤ getLocalNutritionData foodName k := by
  unfold getLocalNutritionData
  cases h : nutritionDB.find? (fun e =>
      jsIncludes (jsToLower foodName) e.1 || jsIncludes e.1 (jsToLower foodName)) with
  | none => exact defaultNutrition_nonneg k
  | some e => exact nutritionDB_nonneg e (List.mem_of_find?_eq_some h) k

theorem confWeight_nonneg {c : ℚ} (hc : 0 ≤ c) : 0 ≤ confWeight c := by
  unfold confWeight
  split_ifs with h
  · norm_num
  · exact hc

theorem contribution_nonneg {p : FoodItem × Option NutrientVector}
    (hv : ∀ k, 0 ≤ (p.2.getD fun _ => 0) k) (hc : 0 ≤ p.1.confidence) (k : NutrientKey) :
    0 ≤ contribution p k := by
  rcases p with ⟨f, vo⟩
  cases vo with
  | none => simp [contribution]
  | some v =>
    have hvk : 0 ≤ v k := hv k
    simp only [contribution]
    split_ifs with h
    · exact mul_nonneg hvk (confWeight_nonneg hc)
    · exact le_refl 0

/-! ## Claim theorems -/

/-- C7 (confirmed): for every list of food items paired with resolved
per-food nutrient vectors that are keywise non-negative, with non-negative
confidences, the aggregated meal-level nutrient vector of getNutritionalData
is non-negative on every key; and every vector the local lookup can resolve
to is itself keywise non-negative. -/
theorem aggregated_nutrition_nonneg (results : List (FoodItem × Option NutrientVector))
    (hv : ∀ p ∈ results, ∀ k, 0 ≤ (p.2.getD fun _ => 0) k)
    (hc : ∀ p ∈ results, 0 ≤ p.1.confidence) :
    (∀ k, 0 ≤ combineNutrition results k) ∧
    (∀ foodName k, 0 ≤ getLocalNutritionData foodName k) := by
  refine ⟨?_, fun foodName k => getLocalNutritionData_nonneg foodName k⟩
  intro k
  rw [combineNutrition_eq_sum]
  apply List.sum_nonneg
  intro x hx
  obtain ⟨p, hp, rfl⟩ := List.mem_map.mp hx
  exact contribution_nonneg (hv p hp) (hc p hp) k

/-- Witness for C7 at a concrete two-item list (one resolved lookup, one
rejected lookup, one zero confidence). -/
theorem aggregated_nutrition_nonneg_witness :
    (∀ k, 0 ≤ combineNutrition
      [({ name := "rice", confidence := mkRat 9 10, source := .label },
          some (mkNV 130 (mkRat 27 10) 28 (mkRat 3 10) (mkRat 4 10) (mkRat 1 10) 1 35)),
       ({ name := "plate", confidence := 0, source := .object }, none)] k) ∧
    (∀ foodName k, 0 ≤ getLocalNutritionData foodName k) :=
  aggregated_nutrition_nonneg _ (by decide) (by decide)

/-- C8 (confirmed): aggregation is linear in confidence: appending a food
item carrying resolved vector v with confidence 0.5 adds, at every key,
exactly half of what the identical item with confidence 1.0 adds. -/
theorem confidence_weighting_halves (f : FoodItem) (v : NutrientVector)
    (rs : List (FoodItem × Option NutrientVector)) (k : NutrientKey) :
    combineNutrition (rs ++ [({ f with confidence := 1/2 }, some v)]) k - combineNutrition rs k
      = (1/2) * (combineNutrition (rs ++ [({ f with confidence := 1 }, some v)]) k
          - combineNutrition rs k) := by
  rw [combineNutrition_snoc, combineNutrition_snoc]
  unfold contribution confWeight
  by_cases h : v k = 0
  · simp [h]
  · simp only [h, ne_eq, not_false_eq_true, if_true, add_sub_cancel_left]
    rw [if_neg (by norm_num : ¬(1/2 : ℚ) = 0), if_neg (one_ne_zero (α := ℚ))]
    ring

/-- C10 (confirmed): a food item whose confidence field is exactly 0 is
weighted as 1 by `confidence || 1`, so it contributes its full resolved
nutrient vector, both in the main aggregation loop and in the fallback
aggregator. -/
theorem zero_confidence_weighs_one (f : FoodItem) (v : NutrientVector)
    (rs : List (FoodItem × Option NutrientVector)) (k : NutrientKey) :
    confWeight 0 = 1 ∧
    combineNutrition (rs ++ [({ f with confidence := 0 }, some v)]) k
      = combineNutrition rs k + v k ∧
    getFallbackNutrition [{ f with confidence := 0 }] k = getLocalNutritionData f.name k := by
  refine ⟨by norm_num [confWeight], ?_, ?_⟩
  · rw [combineNutrition_snoc]
    unfold contribution confWeight
    by_cases h : v k = 0 <;> simp [h]
  · simp [getFallbackNutrition, confWeight]

/-- C1 counterexample: calories 700 (> 600) with an entirely absent user
profile — analyzeHealthRisks returns before the calorie check, so the
warnings list is empty, refuting that the generic calorie warning fires
regardless of profile presence. -/
theorem missing_profile_no_calorie_warning :
    (700 : ℚ) > 600 ∧
    analyzeHealthRisks (fun k => match k with | .calories => (700 : ℚ) | _ => 0) none
      = { risks := [], warnings := [] } := by
  exact ⟨by norm_num, rfl⟩

/-- C1 amended: when a profile object is present, calories > 600 puts the
generic high-calorie warning in the warnings list whatever the condition
data; with a present but empty (or conditionless) profile no findings are
produced; with an absent profile the evaluator returns empty risks AND empty
warnings, so the calorie warning does not fire. -/
theorem calorie_warning_requires_profile (n : NutrientVector) (profile : UserProfile)
    (h : n .calories > 600) :
    (analyzeHealthRisks n (some profile)).warnings = [{ type := "high_calories" }] ∧
    (analyzeHealthRisks n (some { healthConditions := none })).risks = [] ∧
    (analyzeHealthRisks n (some { healthConditions := some [] })).risks = [] ∧
    analyzeHealthRisks n none = { risks := [], warnings := [] } := by
  refine ⟨?_, ?_, ?_, rfl⟩
  · simp [analyzeHealthRisks, h]
  · simp [analyzeHealthRisks, hasCondition]
  · simp [analyzeHealthRisks, hasCondition]

/-- Witness for C1 amended, at calories 700 and a diabetic profile. -/
theorem calorie_warning_requires_profile_witness :
    (analyzeHealthRisks (fun k => match k with | .calories => (700 : ℚ) | _ => 0)
        (some { healthConditions := some [{ condition := "diabetes" }] })).warnings
      = [{ type := "high_calories" }] ∧
    (analyzeHealthRisks (fun k => match k with | .calories => (700 : ℚ) | _ => 0)
        (some { healthConditions := none })).risks = [] ∧
    (analyzeHealthRisks (fun k => match k with | .calories => (700 : ℚ) | _ => 0)
        (some { healthConditions := some [] })).risks = [] ∧
    analyzeHealthRisks (fun k => match k with | .calories => (700 : ℚ) | _ => 0) none
      = { risks := [], warnings := [] } :=
  calorie_warning_requires_profile _ _ (by decide)

/-- C3 (confirmed): a user holding exactly the diabetes and bp conditions,
with carbs 70, sugar 20, sodium 600, gets exactly three findings, in order:
high_carbs warning, high_sugar danger, high_sodium danger. -/
theorem rule_independence (n : NutrientVector)
    (hcarbs : n .carbs = 70) (hsugar : n .sugar = 20) (hsodium : n .sodium = 600) :
    (analyzeHealthRisks n
        (some { healthConditions := some [{ condition := "diabetes" }, { condition := "bp" }] })).risks
      = [{ type := .high_carbs, severity := .warning, value := 70, threshold := 60 },
         { type := .high_sugar, severity := .danger, value := 20, threshold := 15 },
         { type := .high_sodium, severity := .danger, value := 600, threshold := 500 }] := by
  simp only [analyzeHealthRisks, hasCondition, hcarbs, hsugar, hsodium]
  norm_num [trigger]
  refine ⟨fun h => ?_, fun h => ?_⟩ <;> rcases h with h | h <;> exact absurd h (by decide)

/-- Witness for C3 at the concrete nutrient vector of the scenario. -/
theorem rule_independence_witness :
    (analyzeHealthRisks
        (fun k => match k with
          | .carbs => (70 : ℚ) | .sugar => 20 | .sodium => 600 | _ => 0)
        (some { healthConditions := some [{ condition := "diabetes" }, { condition := "bp" }] })).risks
      = [{ type := .high_carbs, severity := .warning, value := 70, threshold := 60 },
         { type := .high_sugar, severity := .danger, value := 20, threshold := 15 },
         { type := .high_sodium, severity := .danger, value := 600, threshold := 500 }] :=
  rule_independence _ rfl rfl rfl

/-- C4 (confirmed): the high_sodium rule is a strict comparison: for any user
profile whose conditions include bp, sodium exactly 500 yields no high_sodium
finding, while sodium 500.01 yields exactly one, a danger finding with value
500.01 and threshold 500. -/
theorem sodium_threshold_boundary (conds : List HealthCondition)
    (hbp : hasCondition conds "bp" = true) (n m : NutrientVector)
    (h500 : n .sodium = 500) (h50001 : m .sodium = 500.01) :
    ((analyzeHealthRisks n (some { healthConditions := some conds })).risks.filter
        (fun r => r.type == RiskType.high_sodium) = []) ∧
    ((analyzeHealthRisks m (some { healthConditions := some conds })).risks.filter
        (fun r => r.type == RiskType.high_sodium)
      = [{ type := .high_sodium, severity := .danger, value := 500.01, threshold := 500 }]) := by
  have hgt : (500 : ℚ) < 500.01 := by norm_num
  constructor
  · simp only [analyzeHealthRisks, List.filter_append,
      apply_ite (List.filter (fun r : RiskFinding => r.type == RiskType.high_sodium)),
      filter_trigger, beq_riskType, hbp, h500, if_true, List.filter_nil]
    split_ifs <;> simp_all [mem_trigger, filter_trigger]
  · simp only [analyzeHealthRisks, List.filter_append,
      apply_ite (List.filter (fun r : RiskFinding => r.type == RiskType.high_sodium)),
      filter_trigger, beq_riskType, hbp, h50001, if_true, List.filter_nil]
    split_ifs <;> simp_all [mem_trigger, filter_trigger]

/-- Witness for C4 with profile [bp] and concrete nutrient vectors. -/
theorem sodium_threshold_boundary_witness :
    ((analyzeHealthRisks (fun k => match k with | .sodium => (500 : ℚ) | _ => 0)
        (some { healthConditions := some [{ condition := "bp" }] })).risks.filter
        (fun r => r.type == RiskType.high_sodium) = []) ∧
    ((analyzeHealthRisks (fun k => match k with | .sodium => (500.01 : ℚ) | _ => 0)
        (some { healthConditions := some [{ condition := "bp" }] })).risks.filter
        (fun r => r.type == RiskType.high_sodium)
      = [{ type := .high_sodium, severity := .danger, value := 500.01, threshold := 500 }]) :=
  sodium_threshold_boundary _ (by decide) _ _ rfl rfl

/-- C9 (confirmed): every finding pushed by analyzeHealthRisks strictly
exceeds its threshold, and the severity is determined by the type: warning
exactly for high_carbs and high_fat, danger exactly for high_sugar,
high_sodium and high_potassium. -/
theorem risk_finding_invariant (n : NutrientVector) (p : Option UserProfile) :
    ∀ r ∈ (analyzeHealthRisks n p).risks,
      r.threshold < r.value ∧
      (r.severity = .warning ↔ (r.type = .high_carbs ∨ r.type = .high_fat)) ∧
      (r.severity = .danger ↔
        (r.type = .high_sugar ∨ r.type = .high_sodium ∨ r.type = .high_potassium)) := by
  intro r hr
  cases p with
  | none => simp [analyzeHealthRisks] at hr
  | some profile =>
    simp only [analyzeHealthRisks] at hr
    rcases List.mem_append.mp hr with h01 | hC
    · rcases List.mem_append.mp h01 with h0 | hK
      · rcases List.mem_append.mp h0 with hD | hB
        · by_cases hc : hasCondition (profile.healthConditions.getD []) "diabetes" = true
          · rw [if_pos hc] at hD
            rcases List.mem_append.mp hD with h1 | h2
            · obtain ⟨rfl, ht⟩ := mem_trigger.mp h1
              exact ⟨ht, by simp, by simp⟩
            · obtain ⟨rfl, ht⟩ := mem_trigger.mp h2
              exact ⟨ht, by simp, by simp⟩
          · rw [if_neg hc] at hD
            simp at hD
        · by_cases hc : hasCondition (profile.healthConditions.getD []) "bp" = true
          · rw [if_pos hc] at hB
            obtain ⟨rfl, ht⟩ := mem_trigger.mp hB
            exact ⟨ht, by simp, by simp⟩
          · rw [if_neg hc] at hB
            simp at hB
      · by_cases hc : hasCondition (profile.healthConditions.getD []) "kidney" = true
        · rw [if_pos hc] at hK
          obtain ⟨rfl, ht⟩ := mem_trigger.mp hK
          exact ⟨ht, by simp, by simp⟩
        · rw [if_neg hc] at hK
          simp at hK
    · by_cases hc : hasCondition (profile.healthConditions.getD []) "cholesterol" = true
      · rw [if_pos hc] at hC
        obtain ⟨rfl, ht⟩ := mem_trigger.mp hC
        exact ⟨ht, by simp, by simp⟩
      · rw [if_neg hc] at hC
        simp at hC

/-- Witness for C9: the high_carbs finding of a diabetic profile at carbs 70
is a member of the produced findings and satisfies the invariant. -/
theorem risk_finding_invariant_witness :
    ({ type := .high_carbs, severity := .warning, value := 70, threshold := 60 } : RiskFinding)
        ∈ (analyzeHealthRisks (fun k => match k with | .carbs => (70 : ℚ) | _ => 0)
          (some { healthConditions := some [{ condition := "diabetes" }] })).risks ∧
    ((60 : ℚ) < 70 ∧
      ((Severity.warning = .warning) ↔
        (RiskType.high_carbs = .high_carbs ∨ RiskType.high_carbs = .high_fat)) ∧
      ((Severity.warning = .danger) ↔
        (RiskType.high_carbs = .high_sugar ∨ RiskType.high_carbs = .high_sodium ∨
          RiskType.high_carbs = .high_potassium))) :=
  ⟨by decide,
   risk_finding_invariant (fun k => match k with | .carbs => (70 : ℚ) | _ => 0)
     (some { healthConditions := some [{ condition := "diabetes" }] })
     { type := .high_carbs, severity := .warning, value := 70, threshold := 60 } (by decide)⟩

/-- C6 counterexample: when no findings were computed (healthRisks absent)
the pre-save hook leaves the stored category unchanged — a meal previously
categorized healthy stays healthy, it is not set to unknown.  So the
category is not the claimed pure function of the severity multiset. -/
theorem categorizer_not_pure_function :
    applyPreSave (some .healthy) none = some .healthy ∧
    applyPreSave (some .moderate) none = some .moderate ∧
    some Category.healthy ≠ some Category.unknown := by
  exact ⟨rfl, rfl, by decide⟩

/-- C6 amended: when the findings list is reachable, the hook sets the
category from it (any danger → unhealthy; else any warning → moderate; else
if empty → healthy; otherwise — a nonempty list with neither danger nor
warning — it leaves the category unchanged); when the findings list is
absent, the stored category is left unchanged rather than set to unknown. -/
theorem categorizer_characterization (category : Option Category) (rs : List RiskFinding) :
    applyPreSave category (some rs)
      = (if rs.any (fun r => r.severity == Severity.danger) then some .unhealthy
         else if rs.any (fun r => r.severity == Severity.warning) then some .moderate
         else if rs = [] then some .healthy
         else category) ∧
    applyPreSave category none = category := by
  have filterLen : ∀ (p : RiskFinding → Bool),
      ((rs.filter p).length > 0) ↔ rs.any p = true := by
    intro p
    constructor
    · intro h
      obtain ⟨r, hm⟩ := List.exists_mem_of_length_pos h
      have hrf := List.mem_filter.mp hm
      exact List.any_eq_true.mpr ⟨r, hrf.1, hrf.2⟩
    · intro h
      obtain ⟨r, hr, hp⟩ := List.any_eq_true.mp h
      exact List.length_pos.mpr (List.ne_nil_of_mem (List.mem_filter.mpr ⟨hr, hp⟩))
  refine ⟨?_, rfl⟩
  simp only [applyPreSave]
  by_cases hd : rs.any (fun r => r.severity == Severity.danger) = true
  · rw [if_pos ((filterLen _).mpr hd), if_pos hd]
  · rw [if_neg (fun hc => hd ((filterLen _).mp hc)), if_neg hd]
    by_cases hw : rs.any (fun r => r.severity == Severity.warning) = true
    · rw [if_pos ((filterLen _).mpr hw), if_pos hw]
    · rw [if_neg (fun hc => hw ((filterLen _).mp hc)), if_neg hw]
      by_cases hn : rs = []
      · subst hn
        simp
      · rw [if_neg (fun hl => hn (List.length_eq_zero.mp hl)), if_neg hn]

/-! ## Food extractor lemmas -/

theorem removeDupAux_sublist (seen : List String) (l : List FoodItem) :
    List.Sublist (removeDupAux seen l) l := by
  induction l generalizing seen with
  | nil => simp [removeDupAux]
  | cons item rest ih =>
    simp only [removeDupAux]
    split_ifs
    · exact (ih seen).cons item
    · exact (ih (item.name :: seen)).cons₂ item

theorem mem_removeDupAux (seen : List String) (l : List FoodItem) :
    ∀ x ∈ removeDupAux seen l,
      x.name ∉ seen ∧ l.find? (fun y => y.name == x.name) = some x := by
  induction l generalizing seen with
  | nil =>
    intro x hx
    simp [removeDupAux] at hx
  | cons item rest ih =>
    intro x hx
    simp only [removeDupAux] at hx
    by_cases hseen : item.name ∈ seen
    · rw [if_pos hseen] at hx
      obtain ⟨hns, hfind⟩ := ih seen x hx
      have hne : item.name ≠ x.name := fun h => hns (h ▸ hseen)
      refine ⟨hns, ?_⟩
      rw [List.find?_cons_of_neg, hfind]
      simp [hne]
    · rw [if_neg hseen] at hx
      rcases List.mem_cons.mp hx with rfl | hx2
      · refine ⟨hseen, ?_⟩
        rw [List.find?_cons_of_pos]
        simp
      · obtain ⟨hns, hfind⟩ := ih (item.name :: seen) x hx2
        have hne : item.name ≠ x.name := fun h => hns (List.mem_cons.mpr (Or.inl h.symm))
        refine ⟨fun hmem => hns (List.mem_cons.mpr (Or.inr hmem)), ?_⟩
        rw [List.find?_cons_of_neg, hfind]
        simp [hne]

theorem removeDupAux_pairwise (seen : List String) (l : List FoodItem) :
    (removeDupAux seen l).Pairwise (fun a b => a.name ≠ b.name) := by
  induction l generalizing seen with
  | nil => simp [removeDupAux]
  | cons item rest ih =>
    simp only [removeDupAux]
    split_ifs with hseen
    · exact ih seen
    · refine List.Pairwise.cons ?_ (ih (item.name :: seen))
      intro y hy
      have hnm := (mem_removeDupAux (item.name :: seen) rest y hy).1
      exact fun h => hnm (by rw [← h]; exact List.mem_cons_self _ _)

theorem mem_extract_mem_removeDuplicates {vr : VisionResults} {x : FoodItem}
    (hx : x ∈ extractFoodItems vr) : x ∈ removeDuplicates (candidates vr) := by
  have hx1 : x ∈ (removeDuplicates (candidates vr)).mergeSort confDesc :=
    List.take_subset _ _ hx
  exact List.mem_mergeSort.mp hx1

/-- C5 (confirmed): the extractor output has pairwise distinct (lowercased)
names, is sorted by confidence descending, has at most 10 items, and every
output item is the first candidate (labels before localized objects, in
source order) bearing its name — so label-sourced duplicates win. -/
theorem extract_output_invariants (vr : VisionResults) :
    (extractFoodItems vr).Pairwise (fun a b => a.name ≠ b.name) ∧
    (extractFoodItems vr).Pairwise (fun a b => b.confidence ≤ a.confidence) ∧
    (extractFoodItems vr).length ≤ 10 ∧
    ∀ x ∈ extractFoodItems vr, (candidates vr).find? (fun y => y.name == x.name) = some x := by
  have hperm : List.Perm ((removeDuplicates (candidates vr)).mergeSort confDesc)
      (removeDuplicates (candidates vr)) := List.mergeSort_perm _ _
  refine ⟨?_, ?_, ?_, ?_⟩
  · have hd : (removeDuplicates (candidates vr)).Pairwise (fun a b => a.name ≠ b.name) :=
      removeDupAux_pairwise [] _
    exact List.Pairwise.sublist (List.take_sublist 10 _)
      ((List.Perm.pairwise_iff (fun h => Ne.symm h) hperm).mpr hd)
  · have hs := @List.sorted_mergeSort FoodItem confDesc
      (fun a b c hab hbc => by
        simp only [confDesc, decide_eq_true_eq] at *
        exact le_trans hbc hab)
      (fun a b => by
        simp only [confDesc, Bool.or_eq_true, decide_eq_true_eq]
        exact le_total b.confidence a.confidence)
      (removeDuplicates (candidates vr))
    have hs2 : ((removeDuplicates (candidates vr)).mergeSort confDesc).Pairwise
        (fun a b => b.confidence ≤ a.confidence) := by
      refine hs.imp ?_
      intro a b h
      simpa [confDesc] using h
    exact List.Pairwise.sublist (List.take_sublist 10 _) hs2
  · exact List.length_take_le 10 _
  · intro x hx
    exact (mem_removeDupAux [] _ x (mem_extract_mem_removeDuplicates hx)).2

/-- C2 counterexample: a detection with confidence exactly 0.7 (= mkRat 7 10)
and the food-matching name rice is NOT kept: the source filter is the strict
comparison score > 0.7, so the extractor output is empty. -/
theorem conf_point7_label_dropped :
    mkRat 7 10 = (0.7 : ℚ) ∧ isFoodRelated "rice" = true ∧
    extractFoodItems
      { labelAnnotations := some [{ description := "rice", score := mkRat 7 10 }],
        localizedObjectAnnotations := none } = [] := by
  refine ⟨by norm_num [mkRat], by decide, ?_⟩
  simp [extractFoodItems, candidates, labelCandidates, objectCandidates,
    removeDuplicates, removeDupAux, List.mergeSort_nil]

/-- C2 amended: the candidate filter keeps a detection exactly when its
confidence is STRICTLY greater than 0.7 and its name passes the food
vocabulary substring test (a detection at exactly 0.7 is dropped); every item
the extractor outputs is one of these candidates. -/
theorem extract_keep_characterization (vr : VisionResults) :
    (∀ x, x ∈ candidates vr ↔
      ((∃ l ∈ vr.labelAnnotations.getD [], mkRat 7 10 < l.score ∧
          isFoodRelated l.description = true ∧
          x = { name := jsToLower l.description, confidence := l.score, source := .label }) ∨
       (∃ o ∈ vr.localizedObjectAnnotations.getD [], mkRat 7 10 < o.score ∧
          isFoodRelated o.name = true ∧
          x = { name := jsToLower o.name, confidence := o.score, source := .object }))) ∧
    ∀ x ∈ extractFoodItems vr, x ∈ candidates vr := by
  constructor
  · intro x
    simp only [candidates, labelCandidates, objectCandidates, List.mem_append,
      List.mem_filterMap]
    constructor
    · rintro (⟨l, hl, hfl⟩ | ⟨o, ho, hfo⟩)
      · left
        by_cases hc : mkRat 7 10 < l.score ∧ isFoodRelated l.description
        · rw [if_pos hc] at hfl
          exact ⟨l, hl, hc.1, hc.2, (Option.some.inj hfl).symm⟩
        · rw [if_neg hc] at hfl
          cases hfl
      · right
        by_cases hc : mkRat 7 10 < o.score ∧ isFoodRelated o.name
        · rw [if_pos hc] at hfo
          exact ⟨o, ho, hc.1, hc.2, (Option.some.inj hfo).symm⟩
        · rw [if_neg hc] at hfo
          cases hfo
    · rintro (⟨l, hl, hsc, hfood, rfl⟩ | ⟨o, ho, hsc, hfood, rfl⟩)
      · exact Or.inl ⟨l, hl, by rw [if_pos ⟨hsc, hfood⟩]⟩
      · exact Or.inr ⟨o, ho, by rw [if_pos ⟨hsc, hfood⟩]⟩
  · intro x hx
    exact (removeDupAux_sublist [] _).subset (mem_extract_mem_removeDuplicates hx)

/-- Witness for C2 amended: a rice label at confidence 0.71 is a kept
candidate, by the characterization. -/
theorem extract_keep_characterization_witness :
    FoodItem.mk "rice" (mkRat 71 100) .label ∈ candidates
      { labelAnnotations := some [{ description := "Rice", score := mkRat 71 100 }],
        localizedObjectAnnotations := none } :=
  ((extract_keep_characterization _).1 _).mpr
    (Or.inl ⟨{ description := "Rice", score := mkRat 71 100 },
      by decide, by decide, by decide, by decide⟩)

/-- Witness for C5 at a concrete vision response. -/
theorem extract_output_invariants_witness :
    (extractFoodItems
        { labelAnnotations := some [{ description := "Rice", score := mkRat 71 100 }],
          localizedObjectAnnotations := none }).length ≤ 10 :=
  (extract_output_invariants _).2.2.1

end HealthMealTrack
